import Mathlib

/-!
# goose-js migration engine: a shallow embedding

This file embeds the core of the goose-js database migration tool in Lean 4
and proves properties of it.  The embedded components are:

* the declarative SQL migration parser (`src/utils/sql_parser.ts`,
  `parseSqlMigration`),
* filename version extraction (`src/utils/common.ts`,
  `getVersionFromFilename`),
* the migration runner (`src/core/migrate.ts`: `getMigrationFiles`,
  `getAppliedMigrations`, `applyMigrations`, `upMigration`,
  `upByOneMigration`, `downToMigration`, `statusMigration`).

Modelling conventions:

* JavaScript strings are Lean `String`s (a list of characters); the JS string
  primitives used by the source (`trim`, `startsWith`, `endsWith`, `includes`,
  `split(/\r?\n/)`) are re-implemented below character by character so that
  all definitions evaluate inside the kernel.
* `BigInt(decimalString)` is modelled by `strToInt` (arbitrary-precision
  `Int`), matching the source's use of BigInt for version comparison.
* The database ledger table is a list of `LedgerRecord`s kept in insertion
  order; `id` is the auto-increment surrogate key, `insert` appends a row
  with a fresh maximal `id`, `delete` filters by `version_id`, and
  `SELECT * ORDER BY id ASC` is a stable sort by `id`.
* JavaScript's `Array.prototype.sort` (stable since ES2019) is modelled by a
  stable insertion sort `sortBy`.
* An up/down action is an external effect on the database; the runner only
  observes whether it returns or throws, so an action is modelled by its
  outcome: `none` (returns normally) or `some e` (throws the error message
  `e`).  Actions do not touch the ledger table themselves.
* Dynamic module loading and file I/O are abstracted: a directory entry
  carries its already-loaded `MigrationModule` (for a `.sql` file this is the
  result of `parseSqlMigration` on its text, see `sqlDirEntry`).
-/

/-! ## JS string primitives -/

/-- JS `String.prototype.trim` on the characters of a string (the source only
ever trims ASCII whitespace). -/
def jsTrim (s : String) : String :=
  ⟨((s.data.dropWhile Char.isWhitespace).reverse.dropWhile Char.isWhitespace).reverse⟩

/-- JS `String.prototype.startsWith`. -/
def strStartsWith (s pat : String) : Bool :=
  pat.data.isPrefixOf s.data

/-- JS `String.prototype.endsWith`. -/
def strEndsWith (s pat : String) : Bool :=
  pat.data.isSuffixOf s.data

/-- Does `pat` occur as a contiguous substring? -/
def hasSubstring (pat : List Char) : List Char → Bool
  | [] => pat.isEmpty
  | c :: rest => pat.isPrefixOf (c :: rest) || hasSubstring pat rest

/-- JS `String.prototype.includes`. -/
def strIncludes (s pat : String) : Bool :=
  hasSubstring pat.data s.data

/-- Helper for `splitLines`: accumulates the current line (reversed). -/
def splitLinesAux : List Char → List Char → List String
  | [], acc => [⟨acc.reverse⟩]
  | '\r' :: '\n' :: rest, acc => (⟨acc.reverse⟩ : String) :: splitLinesAux rest []
  | '\n' :: rest, acc => (⟨acc.reverse⟩ : String) :: splitLinesAux rest []
  | c :: rest, acc => splitLinesAux rest (c :: acc)

/-- JS `sql.split(/\r?\n/)`: split on `\n` or `\r\n` (a lone `\r` is kept). -/
def splitLines (s : String) : List String :=
  splitLinesAux s.data []

/-- Value of a decimal digit string (used by `strToInt`). -/
def digitsToNat (l : List Char) : Nat :=
  l.foldl (fun acc c => acc * 10 + (c.toNat - 48)) 0

/-- `BigInt(s)` for a (possibly negatively signed) decimal string:
arbitrary-precision integer value, as used by the source for all version
comparisons. -/
def strToInt (s : String) : Int :=
  match s.data with
  | '-' :: rest => - (digitsToNat rest : Int)
  | l => (digitsToNat l : Int)

/-! ## Filename version extraction (`src/utils/common.ts`) -/

/-- `getVersionFromFilename`: the regex `^(\d+)_` applied to a filename.
Returns `some digits` when the filename starts with one or more digits
followed by `_`; the source throws on a non-matching name, modelled by
`none`. -/
def getVersionFromFilename (filename : String) : Option String :=
  let ds := filename.data.takeWhile Char.isDigit
  if ds.isEmpty then none
  else
    match (filename.data.drop ds.length).head? with
    | some '_' => some ⟨ds⟩
    | _ => none

/-! ## Declarative SQL parser (`src/utils/sql_parser.ts`) -/

/-- The parser's `section` variable: `"none" | "up" | "down"`. -/
inductive Sec where
  | none
  | up
  | down
deriving DecidableEq, BEq

/-- The mutable state of the line loop in `parseSqlMigration`. -/
structure ParserState where
  sec : Sec
  inStatement : Bool
  currentStatement : String
  upStatements : List String
  downStatements : List String
deriving DecidableEq

/-- Initial parser state (`section = "none"`, `inStatement = false`, empty
accumulator and statement lists). -/
def initState : ParserState :=
  ⟨Sec.none, false, "", [], []⟩

/-- The body of `for (const line of lines)` in `parseSqlMigration`, one
iteration.  Branches appear in source order:
1. `-- +goose Up` / `-- +goose Down` section markers;
2. skip blank and `--`-comment lines when not inside a statement;
3. `-- +goose StatementBegin` / `-- +goose StatementEnd` markers;
4. inside a statement block: append the raw line;
5. otherwise, in a section: accumulate and flush on a trailing `;`. -/
def processLine (st : ParserState) (line : String) : ParserState :=
  let t := jsTrim line
  if t = "-- +goose Up" then
    { st with sec := Sec.up }
  else if t = "-- +goose Down" then
    { st with sec := Sec.down }
  else if !st.inStatement && (t == "" || strStartsWith t "--") then
    st
  else if t = "-- +goose StatementBegin" then
    { st with inStatement := true, currentStatement := "" }
  else if t = "-- +goose StatementEnd" then
    match st.sec with
    | Sec.up =>
      { st with inStatement := false,
                upStatements := st.upStatements ++ [st.currentStatement] }
    | Sec.down =>
      { st with inStatement := false,
                downStatements := st.downStatements ++ [st.currentStatement] }
    | Sec.none => { st with inStatement := false }
  else if st.inStatement then
    { st with currentStatement := st.currentStatement ++ line ++ "\n" }
  else if st.sec != Sec.none && t != "" && !strStartsWith t "--" then
    let cs := st.currentStatement ++ line ++ "\n"
    if strEndsWith t ";" then
      match st.sec with
      | Sec.up => { st with currentStatement := "", upStatements := st.upStatements ++ [cs] }
      | _ => { st with currentStatement := "", downStatements := st.downStatements ++ [cs] }
    else
      { st with currentStatement := cs }
  else
    st

/-- Run the parser's line loop over a list of lines. -/
def parseLines (lines : List String) : ParserState :=
  lines.foldl processLine initState

/-- The observable result of `parseSqlMigration`: the two statement lists the
returned `up`/`down` closures iterate over, and the two directive flags. -/
structure ParseResult where
  upStatements : List String
  downStatements : List String
  noTransaction : Bool
  irreversible : Bool
deriving DecidableEq

/-- `parseSqlMigration(sql)`.  The source contains no `throw`: it always
returns a migration object, so the embedding is a total function. -/
def parseSqlMigration (sql : String) : ParseResult :=
  let st := parseLines (splitLines sql)
  { upStatements := st.upStatements
    downStatements := st.downStatements
    noTransaction := strIncludes sql "-- +goose NO TRANSACTION"
    irreversible := strIncludes sql "-- +goose IRREVERSIBLE" }

/-! ## Migration engine data model (`src/core/migrate.ts`) -/

/-- A loaded migration module (`MigrationModule` in the source).  `up` and
`down` are database actions; the runner only observes whether an action
returns or throws, so an action is modelled by its outcome: `none` means the
action returns normally, `some e` means it throws the error `e`.  The outer
`Option` of `down` is the optional `down` export (`none` = no down action
defined). -/
structure MigrationModule where
  up : Option String
  down : Option (Option String)
  noTransaction : Bool
  irreversible : Bool
deriving DecidableEq

/-- A loaded migration file (`MigrationFile` in the source; the `filepath`
field is dropped, it is only used for loading). -/
structure MigrationFile where
  version : String
  filename : String
  module : MigrationModule
deriving DecidableEq

/-- A row of the ledger table (`MigrationRecord` in the source; `tstamp` is
not modelled, no claim depends on it). -/
structure LedgerRecord where
  id : Nat
  version_id : String
  is_applied : Nat
deriving DecidableEq

/-- A directory entry: a filename together with the module the loader
produces for it.  For a `.sql` file the module is the result of
`parseSqlMigration` on the file text (see `sqlDirEntry`); for a `.js` file it
is the validated dynamic import.  File I/O itself is not modelled. -/
structure DirEntry where
  filename : String
  module : MigrationModule
deriving DecidableEq

/-- The module `parseSqlMigration` returns, viewed as a `MigrationModule`:
`up` runs the up statements (modelled as returning normally — statement
execution is an external effect), `down` is present exactly when
`downStatements.length > 0`, and the flags are copied. -/
def moduleOfParse (p : ParseResult) : MigrationModule :=
  { up := none
    down := if p.downStatements.length > 0 then some none else none
    noTransaction := p.noTransaction
    irreversible := p.irreversible }

/-- The directory entry for a `.sql` migration file with the given text. -/
def sqlDirEntry (filename text : String) : DirEntry :=
  ⟨filename, moduleOfParse (parseSqlMigration text)⟩

/-! ## Stable sort (JS `Array.prototype.sort`) -/

/-- Insert `x` in front of the first element `y` with `le x y`; keeps `x`
before elements that compare equal, as a stable sort does. -/
def insertBy (le : α → α → Bool) (x : α) : List α → List α
  | [] => [x]
  | y :: ys => if le x y then x :: y :: ys else y :: insertBy le x ys

/-- Stable insertion sort; models JS `Array.prototype.sort` with a comparator
(stable per ES2019).  `le a b = true` means the comparator allows `a` before
`b`. -/
def sortBy (le : α → α → Bool) : List α → List α
  | [] => []
  | x :: xs => insertBy le x (sortBy le xs)

/-! ## Ledger table primitives -/

/-- Auto-increment: one more than the largest `id` in the table. -/
def nextId (l : List LedgerRecord) : Nat :=
  (l.map (fun r => r.id)).foldl max 0 + 1

/-- `db(table).insert({version_id: v, is_applied: 1})`. -/
def insertRecord (l : List LedgerRecord) (v : String) : List LedgerRecord :=
  l ++ [⟨nextId l, v, 1⟩]

/-- `db(table).where("version_id", v).delete()`. -/
def deleteRecord (l : List LedgerRecord) (v : String) : List LedgerRecord :=
  l.filter (fun r => !(r.version_id == v))

/-- Comparator for `ORDER BY id ASC`. -/
def byIdAsc (a b : LedgerRecord) : Bool :=
  decide (a.id ≤ b.id)

/-- `getAppliedMigrations`: `SELECT * FROM table ORDER BY id ASC`. -/
def getAppliedMigrations (db : List LedgerRecord) : List LedgerRecord :=
  sortBy byIdAsc db

/-! ## Loading a directory (`getMigrationFiles`) -/

/-- The filter in `getMigrationFiles`:
`(file.endsWith(".js") || file.endsWith(".sql")) && /^\d+_/.test(file)`. -/
def eligibleFile (f : String) : Bool :=
  (strEndsWith f ".js" || strEndsWith f ".sql") && (getVersionFromFilename f).isSome

/-- Comparator for the version sort in `getMigrationFiles`:
`Number(BigInt(versionA) - BigInt(versionB))`, i.e. ascending numeric
version. -/
def byVersionAsc (a b : DirEntry) : Bool :=
  decide (strToInt ((getVersionFromFilename a.filename).getD "")
          ≤ strToInt ((getVersionFromFilename b.filename).getD ""))

/-- `getMigrationFiles(migrationsDir)`: filter eligible filenames, sort
ascending by numeric version, and load each file.  (The source performs no
duplicate-version check.)  Per-file load failures — unreadable file, invalid
`.js` shape — are outside the model; an entry's module is taken as already
loaded. -/
def getMigrationFiles (dir : List DirEntry) : List MigrationFile :=
  (sortBy byVersionAsc (dir.filter (fun e => eligibleFile e.filename))).map
    (fun e => ⟨(getVersionFromFilename e.filename).getD "", e.filename, e.module⟩)

/-! ## Applying migrations -/

/-- Result of `applyMigrations` / `upMigration`: the final ledger table, the
versions recorded (in order), and the propagated error, if any. -/
structure ApplyResult where
  ledger : List LedgerRecord
  applied : List String
  err : Option String
deriving DecidableEq

/-- `applyMigrations(migrations, options)`: for each migration run `up`, then
record the version in the ledger; a throw from `up` propagates and aborts the
rest of the batch.  In the `noTransaction` branch the insert is a separate
step after `up` returns; in the transactional branch `up` and the insert run
in one transaction — with actions modelled by their outcome the two branches
produce the same ledger, and both are kept to mirror the source. -/
def applyMigrations : List MigrationFile → List LedgerRecord → ApplyResult
  | [], db => ⟨db, [], none⟩
  | m :: rest, db =>
    let step : Except String (List LedgerRecord) :=
      if m.module.noTransaction then
        match m.module.up with
        | some e => Except.error e
        | none => Except.ok (insertRecord db m.version)
      else
        match m.module.up with
        | some e => Except.error e
        | none => Except.ok (insertRecord db m.version)
    match step with
    | Except.error e => ⟨db, [], some e⟩
    | Except.ok db' =>
      let r := applyMigrations rest db'
      ⟨r.ledger, m.version :: r.applied, r.err⟩

/-- The pending filter in `upMigration` / `upByOneMigration`: definitions
whose `version` (a string) is absent — by string equality — from the
ledger's `version_id` column. -/
def pendingOf (migrations : List MigrationFile) (applied : List LedgerRecord) :
    List MigrationFile :=
  migrations.filter (fun m => !(applied.any (fun a => a.version_id == m.version)))

/-- The optional `up-to` restriction in `upMigration`: keep definitions with
`BigInt(version) <= BigInt(target)` (only applied when the pending set is
non-empty, as in the source). -/
def restrictToVersion (pending : List MigrationFile) : Option String → List MigrationFile
  | some v =>
    if pending.length > 0 then
      pending.filter (fun m => decide (strToInt m.version ≤ strToInt v))
    else pending
  | none => pending

/-- `upMigration(options, version?)`: compute the pending set, optionally
restrict it to `version`, no-op when empty, otherwise apply in order. -/
def upMigration (migrations : List MigrationFile) (db : List LedgerRecord)
    (version : Option String) : ApplyResult :=
  if (restrictToVersion (pendingOf migrations (getAppliedMigrations db)) version).length = 0 then
    ⟨db, [], none⟩
  else
    applyMigrations (restrictToVersion (pendingOf migrations (getAppliedMigrations db)) version) db

/-- `upByOneMigration(options)`: apply only the first pending migration. -/
def upByOneMigration (migrations : List MigrationFile) (db : List LedgerRecord) :
    ApplyResult :=
  match pendingOf migrations (getAppliedMigrations db) with
  | [] => ⟨db, [], none⟩
  | p :: _ => applyMigrations [p] db

/-! ## Rolling back (`downToMigration`) -/

/-- Comparator for the rollback sort in `downToMigration`:
`Number(BigInt(b.version_id) - BigInt(a.version_id))`, i.e. DESCENDING
NUMERIC VERSION (not descending insertion id). -/
def byVersionDesc (a b : LedgerRecord) : Bool :=
  decide (strToInt b.version_id ≤ strToInt a.version_id)

/-- The candidate set of `downToMigration`, as the source computes it: sort
the applied records by descending numeric version; with no target take the
first, with a target keep those with `BigInt(version_id) > BigInt(target)`. -/
def migrationsToRollback (applied : List LedgerRecord) :
    Option String → List LedgerRecord
  | none => (sortBy byVersionDesc applied).take 1
  | some v => (sortBy byVersionDesc applied).filter
      (fun m => decide (strToInt v < strToInt m.version_id))

/-- The candidate set as the SPEC describes it (for comparison with the
code's `migrationsToRollback`): ledger entries sorted by `sequenceId` (`id`)
DESCENDING, i.e. most recently inserted first; with no target take the
first, with a target keep those with version greater than the target. -/
def migrationsToRollbackSpec (applied : List LedgerRecord) :
    Option String → List LedgerRecord
  | none => (sortBy (fun a b => decide (b.id ≤ a.id)) applied).take 1
  | some v => (sortBy (fun a b => decide (b.id ≤ a.id)) applied).filter
      (fun m => decide (strToInt v < strToInt m.version_id))

/-- Result of the rollback walk / `downToMigration`: the final ledger, the
versions whose down action was invoked, the versions whose ledger row was
deleted, and the propagated error, if any. -/
structure DownResult where
  ledger : List LedgerRecord
  downsInvoked : List String
  deleted : List String
  err : Option String
deriving DecidableEq

/-- The `for (const appliedMigration of migrationsToRollback)` loop of
`downToMigration`:
* no matching migration file → log and `continue`;
* `irreversible` → `break` (nothing deleted, no down action run, the
  remaining candidates are not processed);
* otherwise run `down` if present (a throw propagates; the delete is not
  reached in the `noTransaction` branch and the transaction rolls back in the
  transactional branch — either way the row survives), then delete the
  ledger row and continue. -/
def rollbackWalk (migrations : List MigrationFile) :
    List LedgerRecord → List LedgerRecord → DownResult
  | db, [] => ⟨db, [], [], none⟩
  | db, c :: rest =>
    match migrations.find? (fun m => m.version == c.version_id) with
    | none => rollbackWalk migrations db rest
    | some m =>
      if m.module.irreversible then
        ⟨db, [], [], none⟩
      else
        match m.module.down with
        | some (some e) => ⟨db, [], [], some e⟩
        | some none =>
          let r := rollbackWalk migrations (deleteRecord db m.version) rest
          ⟨r.ledger, m.version :: r.downsInvoked, m.version :: r.deleted, r.err⟩
        | none =>
          let r := rollbackWalk migrations (deleteRecord db m.version) rest
          ⟨r.ledger, r.downsInvoked, m.version :: r.deleted, r.err⟩

/-- `downToMigration(options, version?)`: no-op on an empty ledger, compute
the candidate set (see `migrationsToRollback`), no-op when it is empty,
otherwise walk it. -/
def downToMigration (migrations : List MigrationFile) (db : List LedgerRecord)
    (version : Option String) : DownResult :=
  if (getAppliedMigrations db).length = 0 then
    ⟨db, [], [], none⟩
  else if (migrationsToRollback (getAppliedMigrations db) version).length = 0 then
    ⟨db, [], [], none⟩
  else
    rollbackWalk migrations db (migrationsToRollback (getAppliedMigrations db) version)

/-! ## Status (`statusMigration`) -/

/-- One line of the status report: filename and whether a ledger record with
the same version string exists. -/
structure StatusLine where
  filename : String
  applied : Bool
deriving DecidableEq

/-- `statusMigration(options)`: a pure report over the migration files and
the ledger.  The untouched ledger is returned alongside the report to make
explicit that the operation never mutates it. -/
def statusMigration (migrations : List MigrationFile) (db : List LedgerRecord) :
    List StatusLine × List LedgerRecord :=
  (migrations.map (fun m =>
    ⟨m.filename, (getAppliedMigrations db).any (fun a => a.version_id == m.version)⟩), db)
/-! ## Helper lemmas -/

theorem mem_insertBy (le : α → α → Bool) (x a : α) (l : List α) :
    a ∈ insertBy le x l ↔ a = x ∨ a ∈ l := by
  induction l with
  | nil => simp [insertBy]
  | cons y ys ih =>
    simp only [insertBy]
    split
    · simp [List.mem_cons]
    · simp only [List.mem_cons, ih]
      tauto

theorem length_insertBy (le : α → α → Bool) (x : α) (l : List α) :
    (insertBy le x l).length = l.length + 1 := by
  induction l with
  | nil => rfl
  | cons y ys ih =>
    simp only [insertBy]
    split
    · simp
    · simp [ih]

theorem mem_sortBy (le : α → α → Bool) (a : α) (l : List α) :
    a ∈ sortBy le l ↔ a ∈ l := by
  induction l with
  | nil => simp [sortBy]
  | cons x xs ih => simp [sortBy, mem_insertBy, ih]

theorem length_sortBy (le : α → α → Bool) (l : List α) :
    (sortBy le l).length = l.length := by
  induction l with
  | nil => rfl
  | cons x xs ih => simp [sortBy, length_insertBy, ih]

theorem pairwise_insertBy (le : α → α → Bool)
    (htot : ∀ a b, le a b = true ∨ le b a = true)
    (htrans : ∀ a b c, le a b = true → le b c = true → le a c = true)
    (x : α) (l : List α) (h : l.Pairwise (fun a b => le a b = true)) :
    (insertBy le x l).Pairwise (fun a b => le a b = true) := by
  induction l with
  | nil => simp [insertBy]
  | cons y ys ih =>
    rcases List.pairwise_cons.mp h with ⟨hy, hys⟩
    simp only [insertBy]
    split
    · rename_i hxy
      refine List.pairwise_cons.mpr ⟨?_, h⟩
      intro z hz
      rcases List.mem_cons.mp hz with rfl | hzys
      · exact hxy
      · exact htrans x y z hxy (hy z hzys)
    · rename_i hxy
      refine List.pairwise_cons.mpr ⟨?_, ih hys⟩
      intro z hz
      rcases (mem_insertBy le x z ys).mp hz with rfl | hzys
      · rcases htot y z with h' | h'
        · exact h'
        · exact absurd h' hxy
      · exact hy z hzys

theorem pairwise_sortBy (le : α → α → Bool)
    (htot : ∀ a b, le a b = true ∨ le b a = true)
    (htrans : ∀ a b c, le a b = true → le b c = true → le a c = true)
    (l : List α) :
    (sortBy le l).Pairwise (fun a b => le a b = true) := by
  induction l with
  | nil => simp [sortBy]
  | cons x xs ih => exact pairwise_insertBy le htot htrans x _ ih

theorem byVersionDesc_total (a b : LedgerRecord) :
    byVersionDesc a b = true ∨ byVersionDesc b a = true := by
  simp only [byVersionDesc, decide_eq_true_iff]
  exact Int.le_total _ _

theorem byVersionDesc_trans (a b c : LedgerRecord) :
    byVersionDesc a b = true → byVersionDesc b c = true → byVersionDesc a c = true := by
  simp only [byVersionDesc, decide_eq_true_iff]
  intro h1 h2
  exact le_trans h2 h1

theorem applyMigrations_ledger_mono (l : List MigrationFile) :
    ∀ (db : List LedgerRecord), ∀ r ∈ db, r ∈ (applyMigrations l db).ledger := by
  induction l with
  | nil => intro db r hr; exact hr
  | cons m rest ih =>
    intro db r hr
    cases hup : m.module.up with
    | some e => simp [applyMigrations, hup, hr]
    | none =>
      simp only [applyMigrations, hup, ite_self]
      exact ih (insertRecord db m.version) r (List.mem_append_left _ hr)

theorem applyMigrations_success_inserts (l : List MigrationFile) :
    ∀ (db : List LedgerRecord), (applyMigrations l db).err = none →
      ∀ m ∈ l, ∃ r ∈ (applyMigrations l db).ledger, r.version_id = m.version := by
  induction l with
  | nil => intro db _ m hm; cases hm
  | cons m0 rest ih =>
    intro db herr m hm
    cases hup : m0.module.up with
    | some e =>
      exfalso
      simp [applyMigrations, hup] at herr
    | none =>
      simp only [applyMigrations, hup, ite_self] at herr ⊢
      rcases List.mem_cons.mp hm with rfl | hmrest
      · exact ⟨⟨nextId db, m.version, 1⟩,
          applyMigrations_ledger_mono rest _ _ (by simp [insertRecord]), rfl⟩
      · exact ih _ herr m hmrest

theorem rollbackWalk_keeps_record (migs : List MigrationFile) (v : String)
    (hz : ∀ m ∈ migs, m.version ≠ v) :
    ∀ (cands db : List LedgerRecord), ∀ r ∈ db, r.version_id = v →
      r ∈ (rollbackWalk migs db cands).ledger := by
  intro cands
  induction cands with
  | nil => intro db r hr _; exact hr
  | cons c rest ih =>
    intro db r hr hrv
    cases hfind : migs.find? (fun m => m.version == c.version_id) with
    | none =>
      simp only [rollbackWalk, hfind]
      exact ih db r hr hrv
    | some m =>
      have hmem : r ∈ deleteRecord db m.version := by
        simp only [deleteRecord, List.mem_filter, Bool.not_eq_true', beq_eq_false_iff_ne,
          ne_eq]
        refine ⟨hr, ?_⟩
        rw [hrv]
        exact fun hcontra => hz m (List.mem_of_find?_eq_some hfind) hcontra.symm
      by_cases hirr : m.module.irreversible = true
      · simp only [rollbackWalk, hfind, hirr, if_true]
        exact hr
      · rw [Bool.not_eq_true] at hirr
        cases hdown : m.module.down with
        | none =>
          simp only [rollbackWalk, hfind, hirr, hdown, Bool.false_eq_true, if_false]
          exact ih _ r hmem hrv
        | some o =>
          cases o with
          | none =>
            simp only [rollbackWalk, hfind, hirr, hdown, Bool.false_eq_true, if_false]
            exact ih _ r hmem hrv
          | some e =>
            simp only [rollbackWalk, hfind, hirr, hdown, Bool.false_eq_true, if_false]
            exact hr

theorem processLine_inStatement (st : ParserState) (line : String)
    (h : st.inStatement = false) : (processLine st line).inStatement = false := by
  by_cases h1 : jsTrim line = "-- +goose Up"
  · simp [processLine, h1, h]
  by_cases h2 : jsTrim line = "-- +goose Down"
  · simp [processLine, h1, h2, h]
  by_cases h3 : (jsTrim line == "" || strStartsWith (jsTrim line) "--") = true
  · simp [processLine, h1, h2, h, h3]
  · -- the `-- +goose StatementBegin` branch is unreachable outside a
    -- statement: the marker starts with `--`, so the comment-skip branch
    -- would have caught it
    have h4 : ¬ jsTrim line = "-- +goose StatementBegin" := by
      intro he
      apply h3
      rw [he]
      rw [(by decide : strStartsWith "-- +goose StatementBegin" "--" = true)]
      simp
    by_cases h5 : jsTrim line = "-- +goose StatementEnd"
    · cases hsec : st.sec <;> simp [processLine, h1, h2, h3, h4, h5, h, hsec] <;>
        split <;> simp [h]
    · by_cases h7 : (st.sec != Sec.none && jsTrim line != "" && !strStartsWith (jsTrim line) "--") = true
      · by_cases h8 : strEndsWith (jsTrim line) ";" = true
        · cases hsec : st.sec <;> simp [processLine, h1, h2, h3, h4, h5, h7, h8, h, hsec] <;>
            split <;> simp [h]
        · simp [processLine, h1, h2, h3, h4, h5, h7, h8, h]
      · simp [processLine, h1, h2, h3, h4, h5, h7, h]

theorem parseLines_inStatement_aux (lines : List String) :
    ∀ (st : ParserState), st.inStatement = false →
      (lines.foldl processLine st).inStatement = false := by
  induction lines with
  | nil => intro st h; exact h
  | cons l rest ih =>
    intro st h
    exact ih (processLine st l) (processLine_inStatement st l h)

theorem upMigration_ledger_mono (migs : List MigrationFile) (db : List LedgerRecord)
    (v : Option String) : ∀ r ∈ db, r ∈ (upMigration migs db v).ledger := by
  intro r hr
  unfold upMigration
  split
  · exact hr
  · exact applyMigrations_ledger_mono _ db r hr

theorem upMigration_success_covers (migs : List MigrationFile) (db : List LedgerRecord)
    (h : (upMigration migs db none).err = none) :
    ∀ m ∈ migs, ∃ r ∈ (upMigration migs db none).ledger, r.version_id = m.version := by
  intro m hm
  unfold upMigration at h ⊢
  by_cases hlen : (restrictToVersion (pendingOf migs (getAppliedMigrations db)) none).length = 0
  · rw [if_pos hlen] at h ⊢
    -- the pending set is empty, so every migration is already in the ledger
    have hempty : pendingOf migs (getAppliedMigrations db) = [] :=
      List.length_eq_zero.mp hlen
    have := (List.filter_eq_nil_iff.mp hempty) m hm
    simp only [Bool.not_eq_true', Bool.not_eq_false] at this
    rcases List.any_eq_true.mp this with ⟨r, hrmem, hrv⟩
    exact ⟨r, (mem_sortBy byIdAsc r db).mp hrmem, (beq_iff_eq.mp hrv)⟩
  · rw [if_neg hlen] at h ⊢
    by_cases hmp : m ∈ restrictToVersion (pendingOf migs (getAppliedMigrations db)) none
    · exact applyMigrations_success_inserts _ db h m hmp
    · -- m is not pending, so some applied record matches it already
      have hmem : ¬ (!((getAppliedMigrations db).any
          (fun a => a.version_id == m.version))) = true := by
        intro hcontra
        exact hmp (List.mem_filter.mpr ⟨hm, hcontra⟩)
      simp only [Bool.not_eq_true', Bool.not_eq_false] at hmem
      rcases List.any_eq_true.mp hmem with ⟨r, hrmem, hrv⟩
      exact ⟨r, applyMigrations_ledger_mono _ db r ((mem_sortBy byIdAsc r db).mp hrmem),
        (beq_iff_eq.mp hrv)⟩

theorem pendingOf_after_success (migs : List MigrationFile) (db : List LedgerRecord)
    (h : (upMigration migs db none).err = none) :
    pendingOf migs (getAppliedMigrations (upMigration migs db none).ledger) = [] := by
  apply List.filter_eq_nil_iff.mpr
  intro m hm
  simp only [Bool.not_eq_true', Bool.not_eq_false]
  rcases upMigration_success_covers migs db h m hm with ⟨r, hrmem, hrv⟩
  exact List.any_eq_true.mpr ⟨r, (mem_sortBy byIdAsc r _).mpr hrmem, beq_iff_eq.mpr hrv⟩

/-! ## Claims -/

/-- C1 (counterexample): the claim that `rollbackTo` walks candidates in
descending `sequenceId` (insertion) order is false.  A ledger produced by
applying version 2 first and version 1 afterwards (out-of-order application
through two `applyPending` calls, the second seeing a newly added file) has
its most recently inserted entry at `id = 3` with version `"1"`; with
`targetVersion` omitted the code picks the entry with the largest numeric
version (`"2"`, `id = 2`), not the most recently inserted one, so the code's
candidate set differs from the spec's sequence-ordered candidate set. -/
theorem rollback_candidates_not_by_sequence :
    (upMigration [⟨"1","1_a.sql",⟨none, some none, false, false⟩⟩,
                  ⟨"2","2_b.sql",⟨none, some none, false, false⟩⟩]
       (upMigration [⟨"2","2_b.sql",⟨none, some none, false, false⟩⟩] [⟨1,"0",1⟩] none).ledger
       none).ledger = [⟨1,"0",1⟩, ⟨2,"2",1⟩, ⟨3,"1",1⟩] ∧
    migrationsToRollback [⟨1,"0",1⟩, ⟨2,"2",1⟩, ⟨3,"1",1⟩] none = [⟨2,"2",1⟩] ∧
    migrationsToRollbackSpec [⟨1,"0",1⟩, ⟨2,"2",1⟩, ⟨3,"1",1⟩] none = [⟨3,"1",1⟩] ∧
    migrationsToRollback [⟨1,"0",1⟩, ⟨2,"2",1⟩, ⟨3,"1",1⟩] none
      ≠ migrationsToRollbackSpec [⟨1,"0",1⟩, ⟨2,"2",1⟩, ⟨3,"1",1⟩] none := by
  decide

/-- C1 (amended): `rollbackTo` walks its candidates in descending
numeric-version order.  With a target version the candidate list is sorted
by weakly decreasing `strToInt version_id` and contains exactly the ledger
entries with version greater than the target; with the target omitted the
single candidate is an entry whose numeric version is maximal in the ledger
(not the most recently inserted entry). -/
theorem rollback_candidates_version_order (l : List LedgerRecord) (v : String)
    (hne : l ≠ []) :
    (migrationsToRollback l (some v)).Pairwise
      (fun a b => strToInt b.version_id ≤ strToInt a.version_id) ∧
    (∀ r, r ∈ migrationsToRollback l (some v) ↔
      r ∈ l ∧ strToInt v < strToInt r.version_id) ∧
    (∃ c, migrationsToRollback l none = [c] ∧ c ∈ l ∧
      ∀ r ∈ l, strToInt r.version_id ≤ strToInt c.version_id) := by
  have hsorted := pairwise_sortBy byVersionDesc byVersionDesc_total byVersionDesc_trans l
  have hpair : (sortBy byVersionDesc l).Pairwise
      (fun a b => strToInt b.version_id ≤ strToInt a.version_id) :=
    hsorted.imp (fun hab => by simpa [byVersionDesc, decide_eq_true_iff] using hab)
  refine ⟨?_, ?_, ?_⟩
  · exact List.Pairwise.sublist (List.filter_sublist _) hpair
  · intro r
    simp only [migrationsToRollback, List.mem_filter, mem_sortBy, decide_eq_true_iff]
  · have hnil : sortBy byVersionDesc l ≠ [] := by
      intro hc
      apply hne
      rw [← List.length_eq_zero, ← length_sortBy byVersionDesc l, hc]
      rfl
    rcases List.exists_cons_of_ne_nil hnil with ⟨c, t, hct⟩
    rw [hct] at hpair
    refine ⟨c, ?_, ?_, ?_⟩
    · simp [migrationsToRollback, hct]
    · exact (mem_sortBy _ c l).mp (hct ▸ List.mem_cons_self c t)
    · intro r hr
      have hr' : r ∈ sortBy byVersionDesc l := (mem_sortBy _ r l).mpr hr
      rw [hct] at hr'
      rcases List.mem_cons.mp hr' with rfl | hrt
      · exact le_refl _
      · exact (List.pairwise_cons.mp hpair).1 r hrt

/-- C1 (witness): `rollback_candidates_version_order` instantiated at a
concrete three-entry ledger and target `"0"`. -/
theorem rollback_candidates_version_order_witness :
    (migrationsToRollback [⟨1,"0",1⟩, ⟨2,"2",1⟩, ⟨3,"1",1⟩] (some "0")).Pairwise
      (fun a b => strToInt b.version_id ≤ strToInt a.version_id) ∧
    (∀ r, r ∈ migrationsToRollback [⟨1,"0",1⟩, ⟨2,"2",1⟩, ⟨3,"1",1⟩] (some "0") ↔
      r ∈ ([⟨1,"0",1⟩, ⟨2,"2",1⟩, ⟨3,"1",1⟩] : List LedgerRecord) ∧
        strToInt "0" < strToInt r.version_id) ∧
    (∃ c, migrationsToRollback [⟨1,"0",1⟩, ⟨2,"2",1⟩, ⟨3,"1",1⟩] none = [c] ∧
      c ∈ ([⟨1,"0",1⟩, ⟨2,"2",1⟩, ⟨3,"1",1⟩] : List LedgerRecord) ∧
      ∀ r ∈ ([⟨1,"0",1⟩, ⟨2,"2",1⟩, ⟨3,"1",1⟩] : List LedgerRecord),
        strToInt r.version_id ≤ strToInt c.version_id) :=
  rollback_candidates_version_order [⟨1,"0",1⟩, ⟨2,"2",1⟩, ⟨3,"1",1⟩] "0" (by decide)

/-- C2 (counterexample): an input whose `-- +goose StatementBegin` has no
matching end marker before end-of-input does NOT abort the load:
`parseSqlMigration` (which contains no throw at all) returns a normal
result — the begin marker is skipped as a comment line and the bare
statement is collected. -/
theorem unterminated_block_returns_normally :
    parseSqlMigration "-- +goose Up\n-- +goose StatementBegin\nSELECT 1;"
      = ⟨["SELECT 1;\n"], [], false, false⟩ := by
  decide

/-- C2 (amended): a statement-begin without a matching end is not a parse
error.  `parseSqlMigration` never raises: for every input the line loop
never even enters explicit-statement mode (`inStatement` stays `false`),
because the comment-skip branch precedes the marker branch and the begin
marker itself starts with `--`; parsing always returns a normal result. -/
theorem parse_never_enters_statement_mode (sql : String) :
    (parseLines (splitLines sql)).inStatement = false :=
  parseLines_inStatement_aux (splitLines sql) initState rfl

/-- C3 (counterexample): a directory with two migration files whose
filename prefixes resolve to the same numeric version does NOT fail to
load: `getMigrationFiles` performs no duplicate-version check and returns a
definition sequence containing both files, each with version `"1"`. -/
theorem duplicate_versions_both_loaded :
    getMigrationFiles [sqlDirEntry "1_a.sql" "-- +goose Up\nSELECT 1;\n",
                       sqlDirEntry "1_b.sql" "-- +goose Up\nSELECT 2;\n"]
      = [⟨"1", "1_a.sql", ⟨none, none, false, false⟩⟩,
         ⟨"1", "1_b.sql", ⟨none, none, false, false⟩⟩] := by
  decide

/-- C3 (amended): loading never rejects duplicate versions; every eligible
file in the directory, duplicates included, contributes exactly one
definition to the returned sequence (the result has one entry per eligible
file, and each eligible file's definition is a member of the result). -/
theorem load_keeps_every_eligible_file (dir : List DirEntry) :
    (getMigrationFiles dir).length = (dir.filter (fun e => eligibleFile e.filename)).length ∧
    ∀ e ∈ dir, eligibleFile e.filename = true →
      (⟨(getVersionFromFilename e.filename).getD "", e.filename, e.module⟩ : MigrationFile)
        ∈ getMigrationFiles dir := by
  constructor
  · unfold getMigrationFiles
    rw [List.length_map, length_sortBy]
  · intro e he hel
    unfold getMigrationFiles
    exact List.mem_map.mpr ⟨e, (mem_sortBy _ e _).mpr (List.mem_filter.mpr ⟨he, hel⟩), rfl⟩

/-- C3 (witness): `load_keeps_every_eligible_file` instantiated at a
one-file directory. -/
theorem load_keeps_every_eligible_file_witness :
    ((getMigrationFiles [sqlDirEntry "1_a.sql" "-- +goose Up\nSELECT 1;\n"]).length
      = ([sqlDirEntry "1_a.sql" "-- +goose Up\nSELECT 1;\n"].filter
          (fun e => eligibleFile e.filename)).length) ∧
    (⟨"1", "1_a.sql", (sqlDirEntry "1_a.sql" "-- +goose Up\nSELECT 1;\n").module⟩ : MigrationFile)
      ∈ getMigrationFiles [sqlDirEntry "1_a.sql" "-- +goose Up\nSELECT 1;\n"] :=
  ⟨(load_keeps_every_eligible_file [sqlDirEntry "1_a.sql" "-- +goose Up\nSELECT 1;\n"]).1,
   (load_keeps_every_eligible_file [sqlDirEntry "1_a.sql" "-- +goose Up\nSELECT 1;\n"]).2
     (sqlDirEntry "1_a.sql" "-- +goose Up\nSELECT 1;\n") (by decide) (by decide)⟩

/-- C4: when the rollback walk reaches a candidate entry whose matching
migration definition has `irreversible = true`, the walk stops immediately:
the result is the untouched ledger with no down action invoked, no row
deleted, and no error — in particular the remaining (older) candidates in
`rest` are never processed.  The second conjunct checks the spec's worked
example: versions 1, 2, 3 applied in order with 2 irreversible;
`rollbackTo(0)` rolls back only 3, leaving 1 and 2 in the ledger and
invoking only 3's down action. -/
theorem irreversible_stops_rollback_walk (migs : List MigrationFile)
    (db : List LedgerRecord) (c : LedgerRecord) (rest : List LedgerRecord)
    (m : MigrationFile)
    (hfind : migs.find? (fun mm => mm.version == c.version_id) = some m)
    (hirr : m.module.irreversible = true) :
    rollbackWalk migs db (c :: rest) = ⟨db, [], [], none⟩ ∧
    downToMigration
      [⟨"1","1_a.sql",⟨none, some none, false, false⟩⟩,
       ⟨"2","2_b.sql",⟨none, some none, false, true⟩⟩,
       ⟨"3","3_c.sql",⟨none, some none, false, false⟩⟩]
      [⟨1,"0",1⟩, ⟨2,"1",1⟩, ⟨3,"2",1⟩, ⟨4,"3",1⟩] (some "0")
      = ⟨[⟨1,"0",1⟩, ⟨2,"1",1⟩, ⟨3,"2",1⟩], ["3"], ["3"], none⟩ := by
  constructor
  · simp [rollbackWalk, hfind, hirr]
  · decide

/-- C4 (witness): `irreversible_stops_rollback_walk` instantiated at a
walk that reaches an irreversible version-2 entry with a version-1 entry
still pending behind it. -/
theorem irreversible_stops_rollback_walk_witness :
    (rollbackWalk [⟨"2","2_b.sql",⟨none, some none, false, true⟩⟩]
      [⟨1,"0",1⟩, ⟨2,"1",1⟩, ⟨3,"2",1⟩] (⟨3,"2",1⟩ :: [⟨2,"1",1⟩])
      = ⟨[⟨1,"0",1⟩, ⟨2,"1",1⟩, ⟨3,"2",1⟩], [], [], none⟩) ∧
    downToMigration
      [⟨"1","1_a.sql",⟨none, some none, false, false⟩⟩,
       ⟨"2","2_b.sql",⟨none, some none, false, true⟩⟩,
       ⟨"3","3_c.sql",⟨none, some none, false, false⟩⟩]
      [⟨1,"0",1⟩, ⟨2,"1",1⟩, ⟨3,"2",1⟩, ⟨4,"3",1⟩] (some "0")
      = ⟨[⟨1,"0",1⟩, ⟨2,"1",1⟩, ⟨3,"2",1⟩], ["3"], ["3"], none⟩ :=
  irreversible_stops_rollback_walk
    [⟨"2","2_b.sql",⟨none, some none, false, true⟩⟩]
    [⟨1,"0",1⟩, ⟨2,"1",1⟩, ⟨3,"2",1⟩] ⟨3,"2",1⟩ [⟨2,"1",1⟩]
    ⟨"2","2_b.sql",⟨none, some none, false, true⟩⟩ (by decide) rfl

/-- C5 (counterexample): the baseline `version = 0` ledger row is not
always preserved.  With a ledger holding only the baseline row and a
directory containing a (reversible) migration file named `0_init.sql`,
`rollbackTo` with no target selects the baseline row as candidate, finds
the matching version-`"0"` definition, and deletes the baseline row. -/
theorem baseline_row_deleted_by_rollback_of_version_zero :
    downToMigration [⟨"0", "0_init.sql", ⟨none, none, false, false⟩⟩] [⟨1,"0",1⟩] none
      = ⟨[], [], ["0"], none⟩ := by
  decide

/-- C5 (amended): provided no migration definition resolves to version
`"0"`, every engine operation preserves the baseline row: `applyPending`
(with any target), `applyOne` and `rollbackTo` (with any target) keep any
ledger record whose `version_id` is `"0"`, and `status` does not touch the
ledger at all. -/
theorem baseline_preserved_without_version_zero_definition
    (migs : List MigrationFile) (db : List LedgerRecord) (v : Option String)
    (r0 : LedgerRecord)
    (hz : ∀ m ∈ migs, m.version ≠ "0")
    (hr0 : r0 ∈ db) (hv0 : r0.version_id = "0") :
    r0 ∈ (upMigration migs db v).ledger ∧
    r0 ∈ (upByOneMigration migs db).ledger ∧
    r0 ∈ (downToMigration migs db v).ledger ∧
    (statusMigration migs db).2 = db := by
  refine ⟨upMigration_ledger_mono migs db v r0 hr0, ?_, ?_, rfl⟩
  · unfold upByOneMigration
    split
    · exact hr0
    · exact applyMigrations_ledger_mono _ db r0 hr0
  · unfold downToMigration
    split
    · exact hr0
    split
    · exact hr0
    · exact rollbackWalk_keeps_record migs "0" hz _ db r0 hr0 hv0

/-- C5 (witness): `baseline_preserved_without_version_zero_definition`
instantiated at a one-file directory and a baseline-only ledger. -/
theorem baseline_preserved_without_version_zero_definition_witness :
    (⟨1,"0",1⟩ : LedgerRecord) ∈
      (upMigration [⟨"1","1_a.sql",⟨none, none, false, false⟩⟩] [⟨1,"0",1⟩] none).ledger ∧
    (⟨1,"0",1⟩ : LedgerRecord) ∈
      (upByOneMigration [⟨"1","1_a.sql",⟨none, none, false, false⟩⟩] [⟨1,"0",1⟩]).ledger ∧
    (⟨1,"0",1⟩ : LedgerRecord) ∈
      (downToMigration [⟨"1","1_a.sql",⟨none, none, false, false⟩⟩] [⟨1,"0",1⟩] none).ledger ∧
    (statusMigration [⟨"1","1_a.sql",⟨none, none, false, false⟩⟩] [⟨1,"0",1⟩]).2 = [⟨1,"0",1⟩] :=
  baseline_preserved_without_version_zero_definition _ _ none _ (by decide) (by decide) rfl

/-- C6: a `noTransaction` migration whose `upAction` throws leaves the
ledger exactly as it was (the insert comes only after `upAction` returns
successfully, so no row is written for that version), the error propagates
to the caller, and the remaining batch (`rest`) is aborted unprocessed. -/
theorem noTransaction_up_failure_leaves_no_ledger_row
    (m : MigrationFile) (rest : List MigrationFile) (db : List LedgerRecord) (e : String)
    (hnt : m.module.noTransaction = true) (hup : m.module.up = some e) :
    applyMigrations (m :: rest) db = ⟨db, [], some e⟩ := by
  simp [applyMigrations, hnt, hup]

/-- C6 (witness): `noTransaction_up_failure_leaves_no_ledger_row`
instantiated at a single failing `noTransaction` migration. -/
theorem noTransaction_up_failure_leaves_no_ledger_row_witness :
    applyMigrations [⟨"1","1_f.js",⟨some "boom", none, true, false⟩⟩] [⟨1,"0",1⟩]
      = ⟨[⟨1,"0",1⟩], [], some "boom"⟩ :=
  noTransaction_up_failure_leaves_no_ledger_row
    ⟨"1","1_f.js",⟨some "boom", none, true, false⟩⟩ [] [⟨1,"0",1⟩] "boom" rfl rfl

/-- C7: evaluation of the parser on the claim's input, a file whose Up
section is exactly one StatementBegin/StatementEnd block holding
`SELECT 1;` and `SELECT 2;`.  The code does NOT return the single verbatim
block `"SELECT 1;\nSELECT 2;\n"` the claim (and the spec) require: the
comment-skip branch precedes the marker branch, so both markers are
discarded as comments, explicit-statement mode is never entered, and the
block content is re-split at semicolons into two statements.
`downStatements` is empty and the resulting module has no down action, as
the claim says. -/
theorem explicit_block_resplit_at_semicolons :
    parseSqlMigration
      "-- +goose Up\n-- +goose StatementBegin\nSELECT 1;\nSELECT 2;\n-- +goose StatementEnd\n"
      = ⟨["SELECT 1;\n", "SELECT 2;\n"], [], false, false⟩ ∧
    (moduleOfParse (parseSqlMigration
      "-- +goose Up\n-- +goose StatementBegin\nSELECT 1;\nSELECT 2;\n-- +goose StatementEnd\n")).down
      = none ∧
    parseSqlMigration
      "-- +goose Up\n-- +goose StatementBegin\nSELECT 1;\nSELECT 2;\n-- +goose StatementEnd\n"
      ≠ ⟨["SELECT 1;\nSELECT 2;\n"], [], false, false⟩ := by
  decide

/-- C8 (counterexample): `applyPending` run twice is not always a second
no-op.  For a directory whose only migration has an `upAction` that throws,
the first run executes it, fails, and records nothing; the second run then
computes the same non-empty pending set and re-executes the migration
(failing again) rather than reporting a no-op. -/
theorem second_apply_reexecutes_after_failure :
    (upMigration [⟨"1","1_fail.js",⟨some "boom", none, false, false⟩⟩] [⟨1,"0",1⟩] none).err
      = some "boom" ∧
    pendingOf [⟨"1","1_fail.js",⟨some "boom", none, false, false⟩⟩]
      (getAppliedMigrations
        (upMigration [⟨"1","1_fail.js",⟨some "boom", none, false, false⟩⟩] [⟨1,"0",1⟩] none).ledger)
      = [⟨"1","1_fail.js",⟨some "boom", none, false, false⟩⟩] ∧
    (upMigration [⟨"1","1_fail.js",⟨some "boom", none, false, false⟩⟩]
      (upMigration [⟨"1","1_fail.js",⟨some "boom", none, false, false⟩⟩] [⟨1,"0",1⟩] none).ledger
      none).err = some "boom" := by
  decide

/-- C8 (amended): provided the first `applyPending()` run reports no
error, a second run over the same directory computes an empty pending set
and is a reported no-op: it executes nothing and returns the ledger
unchanged. -/
theorem applyPending_idempotent_on_success (migs : List MigrationFile)
    (db : List LedgerRecord) (h : (upMigration migs db none).err = none) :
    pendingOf migs (getAppliedMigrations (upMigration migs db none).ledger) = [] ∧
    upMigration migs (upMigration migs db none).ledger none
      = ⟨(upMigration migs db none).ledger, [], none⟩ := by
  have hp := pendingOf_after_success migs db h
  have key : ∀ (L : List LedgerRecord), pendingOf migs (getAppliedMigrations L) = [] →
      upMigration migs L none = ⟨L, [], none⟩ := by
    intro L hL
    have hc : (restrictToVersion (pendingOf migs (getAppliedMigrations L)) none).length = 0 := by
      show (pendingOf migs (getAppliedMigrations L)).length = 0
      rw [hL]
      rfl
    unfold upMigration
    rw [if_pos hc]
  exact ⟨hp, key _ hp⟩

/-- C8 (witness): `applyPending_idempotent_on_success` instantiated at a
one-file directory over a baseline-only ledger. -/
theorem applyPending_idempotent_on_success_witness :
    pendingOf [⟨"1","1_a.sql",⟨none, none, false, false⟩⟩]
      (getAppliedMigrations
        (upMigration [⟨"1","1_a.sql",⟨none, none, false, false⟩⟩] [⟨1,"0",1⟩] none).ledger) = [] ∧
    upMigration [⟨"1","1_a.sql",⟨none, none, false, false⟩⟩]
      (upMigration [⟨"1","1_a.sql",⟨none, none, false, false⟩⟩] [⟨1,"0",1⟩] none).ledger none
      = ⟨(upMigration [⟨"1","1_a.sql",⟨none, none, false, false⟩⟩] [⟨1,"0",1⟩] none).ledger,
         [], none⟩ :=
  applyPending_idempotent_on_success [⟨"1","1_a.sql",⟨none, none, false, false⟩⟩]
    [⟨1,"0",1⟩] (by decide)

/-- C9: the pending statement accumulator survives the section switch.
Processing a `-- +goose Down` marker line changes only the section of the
parser state — `currentStatement` is not reset — so Up-section text not yet
flushed by a semicolon is prepended to the first statement collected into
the down list, as the concrete run shows: the unterminated Up line
`CREATE TABLE t (` ends up glued onto the first Down statement. -/
theorem up_accumulator_carries_into_down_marker :
    (∀ st : ParserState, processLine st "-- +goose Down" = { st with sec := Sec.down }) ∧
    parseSqlMigration "-- +goose Up\nCREATE TABLE t (\n-- +goose Down\nDROP TABLE t;"
      = ⟨[], ["CREATE TABLE t (\nDROP TABLE t;\n"], false, false⟩ :=
  ⟨fun _ => rfl, by decide⟩

/-- C10: applied-versus-pending membership is decided by string equality
of the filename-derived version against the ledger's `version_id`, while
ordering and target comparisons go through arbitrary-precision numeric
value (`strToInt`, the model of `BigInt`).  The filename `07_x.sql` yields
version `"07"`, numerically equal to the applied `"7"` but a different
string, so the definition is classified as pending by `pendingOf`; and
during rollback the lookup `find? (version == version_id)` fails on the
`"7"` candidate, which is skipped — the walk deletes nothing and invokes no
down action. -/
theorem membership_string_equality_ordering_numeric :
    getVersionFromFilename "07_x.sql" = some "07" ∧
    strToInt "07" = strToInt "7" ∧
    pendingOf [⟨"07","07_x.sql",⟨none, some none, false, false⟩⟩] [⟨1,"0",1⟩, ⟨2,"7",1⟩]
      = [⟨"07","07_x.sql",⟨none, some none, false, false⟩⟩] ∧
    downToMigration [⟨"07","07_x.sql",⟨none, some none, false, false⟩⟩]
      [⟨1,"0",1⟩, ⟨2,"7",1⟩] (some "0")
      = ⟨[⟨1,"0",1⟩, ⟨2,"7",1⟩], [], [], none⟩ := by
  decide
